import Mathlib

/-!
# Verification of the modbus-to-mqtt gateway core (`src/app.js`)

This file gives a shallow embedding of the polling/batching/reconnection core of
the `ikulx/modbus-to-mqtt` gateway and proves or refutes the specification's
claims about it.

Modelling conventions:
* The JS register map `modbusAddresses` (a JSON object keyed by numeric address)
  is a structure `AddrMap` holding the key list and a total entry function.
* JS numbers used as register addresses and counts are `Nat`; scaling factors
  and scaled values are `ℚ` (exact arithmetic standing for JS number
  arithmetic on these small decimal factors).
* The asynchronous effects of one invocation of `readModbusDataWithCycle` are
  made explicit: the Modbus block-read and the alarm-store query become
  function/value parameters, and MQTT publishes become a returned event list.
* `setTimeout`/`clearTimeout` for the reconnect timer become an explicit
  `TimerState`: a list of armed-but-unfired timer handles plus the
  `reconnectTimeout` variable holding the most recently armed handle.
-/

/-- One value of the `modbusAddresses` JSON map: the per-register configuration
entry (`entry` in `readModbusDataWithCycle`).  `factor` scales the raw word;
`alarm` is the truthiness of `entry.alarm`; the remaining fields are the opaque
metadata copied verbatim into each data point. -/
structure RegisterEntry where
  factor : ℚ
  topic : String
  type : String
  gw : Bool
  log : Bool
  alarm : Bool
  settings : Bool
  qhmi : Bool
  hkl : Bool
deriving DecidableEq

/-- The JS object `modbusAddresses`: its key set (`Object.keys`) and the entry
stored at each key.  Keys are unique in a JS object. -/
structure AddrMap where
  keys : List Nat
  entry : Nat → RegisterEntry

/-- Insertion of one address into an ascending list, the building block of
the numeric sort below. -/
def insertSorted (a : Nat) : List Nat → List Nat
  | [] => [a]
  | b :: t => if a ≤ b then a :: b :: t else b :: insertSorted a t

/-- `Object.keys(modbusAddresses).map(Number).sort((a, b) => a - b)` — the
ascending address list the grouping works on, modelled as an insertion
sort. -/
def sortedAddresses (m : AddrMap) : List Nat :=
  m.keys.foldr insertSorted []

/-- The loop body of `groupAddressesDynamically`: `prev` is `addresses[i-1]`,
`currentGroup` the group being grown, the list argument the remaining
addresses.  A new group is started when the gap to the previous address
exceeds 1 or the current group already holds `maxReg` members; at the end the
final (non-empty) group is pushed. -/
def groupLoop (maxReg : Nat) : Nat → List Nat → List Nat → List (List Nat)
  | _, currentGroup, [] =>
      if currentGroup.length > 0 then [currentGroup] else []
  | prev, currentGroup, currentAddress :: rest =>
      if currentAddress - prev > 1 ∨ currentGroup.length ≥ maxReg then
        currentGroup :: groupLoop maxReg currentAddress [currentAddress] rest
      else
        groupLoop maxReg currentAddress (currentGroup ++ [currentAddress]) rest

/-- `groupAddressesDynamically` from `src/app.js`, parametrised by the globals
it reads: the sorted address list and `MAX_REGISTERS_PER_REQUEST`.  Empty
input returns `[]` immediately. -/
def groupAddressesDynamically (addresses : List Nat) (maxReg : Nat) :
    List (List Nat) :=
  match addresses with
  | [] => []
  | a :: rest => groupLoop maxReg a [a] rest

/-- The predicate "is exactly one more": consecutive members of a group. -/
def Consec (x y : Nat) : Prop := y = x + 1

theorem groupLoop_flatten (maxReg : Nat) :
    ∀ (rest : List Nat) (prev : Nat) (cur : List Nat),
      (groupLoop maxReg prev cur rest).flatten = cur ++ rest := by
  intro rest
  induction rest with
  | nil =>
      intro prev cur
      cases cur with
      | nil => simp [groupLoop]
      | cons x t => simp [groupLoop]
  | cons a rest ih =>
      intro prev cur
      by_cases h : a - prev > 1 ∨ cur.length ≥ maxReg
      · simp [groupLoop, h, ih]
      · simp [groupLoop, h, ih]

theorem groupAddressesDynamically_flatten (addresses : List Nat) (maxReg : Nat) :
    (groupAddressesDynamically addresses maxReg).flatten = addresses := by
  cases addresses with
  | nil => simp [groupAddressesDynamically]
  | cons a rest => simp [groupAddressesDynamically, groupLoop_flatten]

theorem groupLoop_ne_nil (maxReg : Nat) :
    ∀ (rest : List Nat) (prev : Nat) (cur : List Nat), cur ≠ [] →
      ∀ g ∈ groupLoop maxReg prev cur rest, g ≠ [] := by
  intro rest
  induction rest with
  | nil =>
      intro prev cur hcur g hg
      cases cur with
      | nil => exact absurd rfl hcur
      | cons x t =>
          simp [groupLoop] at hg
          simp [hg]
  | cons a rest ih =>
      intro prev cur hcur g hg
      by_cases h : a - prev > 1 ∨ cur.length ≥ maxReg
      · simp [groupLoop, h] at hg
        rcases hg with hg | hg
        · simp [hg]; exact hcur
        · exact ih a [a] (by simp) g hg
      · simp [groupLoop, h] at hg
        exact ih a (cur ++ [a]) (by simp) g hg

theorem groupLoop_length_le (maxReg : Nat) (hmax : 1 ≤ maxReg) :
    ∀ (rest : List Nat) (prev : Nat) (cur : List Nat), cur.length ≤ maxReg →
      ∀ g ∈ groupLoop maxReg prev cur rest, g.length ≤ maxReg := by
  intro rest
  induction rest with
  | nil =>
      intro prev cur hcur g hg
      cases cur with
      | nil => simp [groupLoop] at hg
      | cons x t =>
          simp [groupLoop] at hg
          simpa [hg] using hcur
  | cons a rest ih =>
      intro prev cur hcur g hg
      by_cases h : a - prev > 1 ∨ cur.length ≥ maxReg
      · simp [groupLoop, h] at hg
        rcases hg with hg | hg
        · simpa [hg] using hcur
        · exact ih a [a] (by simpa using hmax) g hg
      · simp [groupLoop, h] at hg
        push_neg at h
        have hlt : cur.length < maxReg := h.2
        exact ih a (cur ++ [a]) (by simpa using hlt) g hg

theorem groupLoop_chain' (maxReg : Nat) :
    ∀ (rest : List Nat) (prev : Nat) (cur : List Nat),
      List.Chain' Consec cur → cur.getLast? = some prev →
      List.Chain (· < ·) prev rest →
      ∀ g ∈ groupLoop maxReg prev cur rest, List.Chain' Consec g := by
  intro rest
  induction rest with
  | nil =>
      intro prev cur hchain _ _ g hg
      cases cur with
      | nil => simp [groupLoop] at hg
      | cons x t =>
          simp [groupLoop] at hg
          simpa [hg] using hchain
  | cons a rest ih =>
      intro prev cur hchain hlast hsorted g hg
      have hlt : prev < a := (List.chain_cons.mp hsorted).1
      have hrest : List.Chain (· < ·) a rest := (List.chain_cons.mp hsorted).2
      by_cases h : a - prev > 1 ∨ cur.length ≥ maxReg
      · simp [groupLoop, h] at hg
        rcases hg with hg | hg
        · simpa [hg] using hchain
        · exact ih a [a] (by simp) (by simp) hrest g hg
      · simp [groupLoop, h] at hg
        push_neg at h
        have hstep : a = prev + 1 := by omega
        have hchain' : List.Chain' Consec (cur ++ [a]) := by
          rw [List.chain'_append]
          refine ⟨hchain, by simp, ?_⟩
          intro x hx y hy
          simp at hy
          rw [hlast] at hx
          simp at hx
          simp only [Consec]
          omega
        exact ih a (cur ++ [a]) hchain' (List.getLast?_concat _) hrest g hg

theorem groupAddressesDynamically_mem (addresses : List Nat) (maxReg : Nat)
    (hmax : 1 ≤ maxReg) (hs : List.Chain' (· < ·) addresses) :
    ∀ g ∈ groupAddressesDynamically addresses maxReg,
      List.Chain' Consec g ∧ g.length ≤ maxReg ∧ g ≠ [] := by
  cases addresses with
  | nil => simp [groupAddressesDynamically]
  | cons a rest =>
      intro g hg
      have hc : List.Chain (· < ·) a rest := hs
      refine ⟨?_, ?_, ?_⟩
      · exact groupLoop_chain' maxReg rest a [a] (by simp) (by simp) hc g hg
      · exact groupLoop_length_le maxReg hmax rest a [a] (by simpa using hmax) g hg
      · exact groupLoop_ne_nil maxReg rest a [a] (by simp) g hg

theorem groupAddressesDynamically_nodup (addresses : List Nat) (maxReg : Nat)
    (hs : List.Chain' (· < ·) addresses) :
    List.Pairwise List.Disjoint (groupAddressesDynamically addresses maxReg) := by
  have hnodup : addresses.Nodup := by
    have hp : List.Pairwise (· < ·) addresses := List.chain'_iff_pairwise.mp hs
    exact hp.nodup
  have hflat : (groupAddressesDynamically addresses maxReg).flatten.Nodup := by
    rw [groupAddressesDynamically_flatten]; exact hnodup
  exact (List.nodup_flatten.mp hflat).2

theorem consec_getLastD (t : List Nat) :
    ∀ (x d : Nat), List.Chain' Consec (x :: t) →
      (x :: t).getLastD d = x + t.length := by
  induction t with
  | nil => intro x d _; rfl
  | cons b t ih =>
      intro x d hchain
      have hcons := List.chain'_cons.mp hchain
      have hb : b = x + 1 := hcons.1
      have hih := ih b x hcons.2
      rw [List.getLastD_cons, hih]
      simp [hb]
      omega

theorem consec_mem_bounds (t : List Nat) :
    ∀ (x : Nat), List.Chain' Consec (x :: t) →
      ∀ a ∈ x :: t, x ≤ a ∧ a ≤ x + t.length := by
  induction t with
  | nil =>
      intro x _ a ha
      simp at ha
      simp [ha]
  | cons b t ih =>
      intro x hchain a ha
      have hcons := List.chain'_cons.mp hchain
      have hb : b = x + 1 := hcons.1
      simp at ha
      rcases ha with ha | ha | ha
      · simp [ha]
      · have := ih b hcons.2 a (by simp [ha])
        simp [List.length_cons]
        omega
      · have := ih b hcons.2 a (by simp [ha])
        simp [List.length_cons]
        omega

/-- The object pushed onto `payload` for one address in one cycle: address,
scaled value and the metadata copied from the register entry. -/
structure DataPoint where
  address : Nat
  value : ℚ
  topic : String
  type : String
  gw : Bool
  log : Bool
  alarm : Bool
  settings : Bool
  qhmi : Bool
  hkl : Bool
  factor : ℚ
deriving DecidableEq

/-- Building one data point from a raw register word:
`value = data.data[address - startAddress] * entry.factor` together with the
metadata fields of the entry. -/
def mkDataPoint (m : AddrMap) (address raw : Nat) : DataPoint :=
  { address := address
    value := (raw : ℚ) * (m.entry address).factor
    topic := (m.entry address).topic
    type := (m.entry address).type
    gw := (m.entry address).gw
    log := (m.entry address).log
    alarm := (m.entry address).alarm
    settings := (m.entry address).settings
    qhmi := (m.entry address).qhmi
    hkl := (m.entry address).hkl
    factor := (m.entry address).factor }

/-- The single row returned by the aggregate alarm query: a total plus one
count per fixed priority label. -/
structure AlarmStatus where
  totalActive : Nat
  prio1 : Nat
  prio2 : Nat
  prio3 : Nat
  warnung : Nat
  info : Nat
deriving DecidableEq

/-- The aggregate `SELECT` over the `alarms` table, evaluated on the list of
priority labels of the stored alarm rows: `COUNT(*)` plus one
`SUM(CASE WHEN priority = '…' THEN 1 ELSE 0 END)` per label. -/
def alarmStatusQuery (alarms : List String) : AlarmStatus :=
  { totalActive := alarms.length
    prio1 := (alarms.filter (fun p => p = "prio1")).length
    prio2 := (alarms.filter (fun p => p = "prio2")).length
    prio3 := (alarms.filter (fun p => p = "prio3")).length
    warnung := (alarms.filter (fun p => p = "warnung")).length
    info := (alarms.filter (fun p => p = "info")).length }

/-- The MariaDB connection pool, abstracted to the number of acquired and not
yet released handles. -/
structure Pool where
  outstanding : Nat
deriving DecidableEq

/-- `pool.getConnection()` on success: one more handle out. -/
def poolAcquire (p : Pool) : Pool := { outstanding := p.outstanding + 1 }

/-- `connection.release()`: one handle back. -/
def poolRelease (p : Pool) : Pool := { outstanding := p.outstanding - 1 }

/-- `getAlarmStatus` from `src/app.js`.  `getConnectionOk` is whether
`pool.getConnection()` succeeds, `queryOk` whether the aggregate query
succeeds, `alarms` the priority labels of the rows of the `alarms` table.
On a query error the function logs, rethrows (`Except.error`) and the
`finally` block releases the connection; when `getConnection` itself fails the
local `connection` stays `null` and the `finally` block releases nothing.
Returns the pool after the call and the call's outcome. -/
def getAlarmStatus (p : Pool) (getConnectionOk : Bool) (alarms : List String)
    (queryOk : Bool) : Pool × Except Unit AlarmStatus :=
  if getConnectionOk then
    let p1 := poolAcquire p
    if queryOk then
      (poolRelease p1, Except.ok (alarmStatusQuery alarms))
    else
      (poolRelease p1, Except.error ())
  else
    (p, Except.error ())

/-- The reconnect-timer side of the process state: `pending` lists the handles
of armed and not yet fired timeouts, `reconnectTimeout` is the JS variable of
that name (the handle of the most recently armed reconnect timeout, `none`
standing for JS `null`), and `nextHandle` produces fresh handles. -/
structure TimerState where
  pending : List Nat
  reconnectTimeout : Option Nat
  nextHandle : Nat
deriving DecidableEq

/-- The `clearTimeout(reconnectTimeout)` call guarded by
`if (reconnectTimeout)`: the handle stored in `reconnectTimeout` is removed
from the armed timers. -/
def clearCurrentTimeout (ts : TimerState) : List Nat :=
  match ts.reconnectTimeout with
  | some h => ts.pending.erase h
  | none => ts.pending

/-- `scheduleReconnect` from `src/app.js`: clear the previously stored
timeout, then arm a fresh 10 s timeout and store its handle. -/
def scheduleReconnect (ts : TimerState) : TimerState :=
  { pending := clearCurrentTimeout ts ++ [ts.nextHandle]
    reconnectTimeout := some ts.nextHandle
    nextHandle := ts.nextHandle + 1 }

/-- The invariant maintained for the timer state: at most one armed reconnect
timeout, and any armed one is the one stored in `reconnectTimeout`. -/
def TimerInv (ts : TimerState) : Prop :=
  ts.pending.length ≤ 1 ∧ ∀ h ∈ ts.pending, ts.reconnectTimeout = some h

instance (ts : TimerState) : Decidable (TimerInv ts) := by
  unfold TimerInv
  infer_instance

/-- The mutable process state read and written by the cycle and connection
functions: `readCycleCounter`, `modbusConnected` and the reconnect-timer
state. -/
structure GatewayState where
  readCycleCounter : Nat
  modbusConnected : Bool
  timers : TimerState
deriving DecidableEq

/-- `connectModbus` from `src/app.js`, with the outcome of
`modbusClient.connectTCP` as a parameter.  Success sets
`modbusConnected = true` (and nothing else); failure sets it to `false` and
calls `scheduleReconnect`. -/
def connectModbus (st : GatewayState) (success : Bool) : GatewayState :=
  if success then
    { st with modbusConnected := true }
  else
    { st with modbusConnected := false, timers := scheduleReconnect st.timers }

/-- The reconnect timeout firing: the armed timeout stored in
`reconnectTimeout` is no longer pending, and its callback runs
`connectModbus`. -/
def fireTimer (st : GatewayState) (connectSuccess : Bool) : GatewayState :=
  connectModbus
    { st with timers := { st.timers with pending := clearCurrentTimeout st.timers } }
    connectSuccess

/-- One MQTT publish performed by the cycle: the telemetry payload to
`MQTT_TOPIC`, the alarm payload to `MQTT_ALARM_TOPIC`, or the alarm status to
`MQTT_STATUS_TOPIC`. -/
inductive PublishEvent where
  | telemetry (payload : List DataPoint)
  | alarm (payload : List DataPoint)
  | status (s : AlarmStatus)
deriving DecidableEq

/-- `group[0]` — the start address of a block read. -/
def startAddressOf (g : List Nat) : Nat := g.headD 0

/-- `group[group.length - 1] - startAddress + 1` — the word count of a block
read. -/
def countOf (g : List Nat) : Nat := g.getLastD 0 - startAddressOf g + 1

/-- The accumulators of the cycle's read loop: `payload`, `alarmPayload` and
the block reads issued so far (start address and count of each
`readHoldingRegisters` call). -/
structure CycleAccum where
  payload : List DataPoint
  alarmPayload : List DataPoint
  reads : List (Nat × Nat)
deriving DecidableEq

/-- The `for (const group of groupedAddresses)` loop of
`readModbusDataWithCycle`.  For each group one block read is issued; on
success every address of the group contributes a data point (alarm-flagged
ones also to `alarmPayload`); on error the loop breaks with
`readingSuccessful = false`.  `readBlock start count` is the outcome of
`modbusClient.readHoldingRegisters(start, count)`. -/
def processGroups (m : AddrMap) (readBlock : Nat → Nat → Except Unit (List Nat)) :
    List (List Nat) → CycleAccum → CycleAccum × Bool
  | [], acc => (acc, true)
  | g :: rest, acc =>
      match readBlock (startAddressOf g) (countOf g) with
      | Except.ok data =>
          let pts := g.map (fun a => mkDataPoint m a (data.getD (a - startAddressOf g) 0))
          processGroups m readBlock rest
            { payload := acc.payload ++ pts
              alarmPayload := acc.alarmPayload ++ pts.filter (fun p => p.alarm)
              reads := acc.reads ++ [(startAddressOf g, countOf g)] }
      | Except.error _ =>
          ({ acc with reads := acc.reads ++ [(startAddressOf g, countOf g)] }, false)

/-- `readModbusDataWithCycle` from `src/app.js`, with its effects explicit:
`readBlock` is the Modbus block-read capability, `alarmQuery` the outcome of
`getAlarmStatus()` for this cycle, and the returned list the MQTT publishes
performed, in order.  Mirrors the source exactly: the not-connected guard
returns before the `try`/`finally` (so without touching the counter); an
empty group list bumps the counter and returns; a read failure suppresses all
publishing, drops the connection and schedules a reconnect; on success the
telemetry and alarm payloads are published when non-empty, then the alarm
status is queried and published, a query error being logged and swallowed. -/
def readModbusDataWithCycle (maxReg : Nat) (m : AddrMap)
    (readBlock : Nat → Nat → Except Unit (List Nat))
    (alarmQuery : Except Unit AlarmStatus)
    (st : GatewayState) : GatewayState × List PublishEvent :=
  if st.modbusConnected = false then
    (st, [])
  else
    let groupedAddresses := groupAddressesDynamically (sortedAddresses m) maxReg
    if groupedAddresses = [] then
      ({ st with readCycleCounter := st.readCycleCounter + 1 }, [])
    else
      let r := processGroups m readBlock groupedAddresses ⟨[], [], []⟩
      if r.2 then
        let telemetryEvents :=
          if r.1.payload = [] then [] else [PublishEvent.telemetry r.1.payload]
        let alarmEvents :=
          if r.1.alarmPayload = [] then [] else [PublishEvent.alarm r.1.alarmPayload]
        let statusEvents :=
          match alarmQuery with
          | Except.ok s => [PublishEvent.status s]
          | Except.error _ => []
        ({ st with readCycleCounter := st.readCycleCounter + 1 },
          telemetryEvents ++ alarmEvents ++ statusEvents)
      else
        ({ st with readCycleCounter := st.readCycleCounter + 1,
                   modbusConnected := false,
                   timers := scheduleReconnect st.timers }, [])

/-- The set of addresses the cycle groups for reading, as a function of the
cycle index.  The implementation derives it from the full key set on every
cycle; the `cycleIndex` parameter exists so that the spec's claimed dependence
on it can be stated, and is not consulted. -/
def cycleSelection (maxReg : Nat) (m : AddrMap) (cycleIndex : Nat) : List Nat :=
  (groupAddressesDynamically (sortedAddresses m) maxReg).flatten

/-- Modelled from the spec: the topic-class marker identifying low-priority
registers ("low").  `src/app.js` contains no such marker or filter; this
definition only serves to state the spec's claim C1. -/
def specLowPriority (e : RegisterEntry) : Bool := e.topic = "low"

/-- A register entry carrying the spec's low-priority topic-class marker. -/
def exEntryLow : RegisterEntry :=
  { factor := 1, topic := "low", type := "int", gw := false, log := false,
    alarm := false, settings := false, qhmi := false, hkl := false }

/-- An ordinary high-priority register entry. -/
def exEntryStd : RegisterEntry :=
  { factor := 1, topic := "hmi", type := "int", gw := false, log := true,
    alarm := true, settings := false, qhmi := false, hkl := false }

/-- A two-register map whose address 0 is flagged low-priority. -/
def exMapTwo : AddrMap :=
  { keys := [0, 1], entry := fun a => if a = 0 then exEntryLow else exEntryStd }

/-- The timer state at process start: nothing armed, `reconnectTimeout` is
`null`. -/
def initialTimers : TimerState :=
  { pending := [], reconnectTimeout := none, nextHandle := 0 }

/-- The process state at startup: counter 0, not connected, no timers. -/
def initialGateway : GatewayState :=
  { readCycleCounter := 0, modbusConnected := false, timers := initialTimers }

/-- C4: for every strictly ascending address list and `maxBatchSize ≥ 1` the
grouping partitions the input exactly — its concatenation is the input in the
original order, the groups are pairwise disjoint, every group is a non-empty
run of consecutive integers of length at most `maxBatchSize`; the empty input
yields the empty sequence, and `{10,11,12,20,21}` with `maxBatchSize = 10`
yields `[[10,11,12],[20,21]]`. -/
theorem batcher_group_partition (addrs : List Nat) (maxReg : Nat)
    (hmax : 1 ≤ maxReg) (hs : List.Chain' (· < ·) addrs) :
    (groupAddressesDynamically addrs maxReg).flatten = addrs ∧
    List.Pairwise List.Disjoint (groupAddressesDynamically addrs maxReg) ∧
    (∀ g ∈ groupAddressesDynamically addrs maxReg,
       List.Chain' Consec g ∧ g.length ≤ maxReg ∧ g ≠ []) ∧
    groupAddressesDynamically [] maxReg = [] ∧
    groupAddressesDynamically [10, 11, 12, 20, 21] 10 = [[10, 11, 12], [20, 21]] :=
  ⟨groupAddressesDynamically_flatten addrs maxReg,
   groupAddressesDynamically_nodup addrs maxReg hs,
   groupAddressesDynamically_mem addrs maxReg hmax hs,
   rfl,
   by decide⟩

/-- Witness for C4 at the spec's concrete example. -/
theorem batcher_group_partition_witness :
    (groupAddressesDynamically [10, 11, 12, 20, 21] 10).flatten = [10, 11, 12, 20, 21] ∧
    List.Pairwise List.Disjoint (groupAddressesDynamically [10, 11, 12, 20, 21] 10) := by
  have h := batcher_group_partition [10, 11, 12, 20, 21] 10 (by decide) (by norm_num [List.chain'_cons])
  exact ⟨h.1, h.2.1⟩

/-- C10: for every group produced by the grouping from a strictly ascending
address list, the index `address - startAddress` used to pick the raw word of
each member address lies in `[0, count)` for the requested word count
`count = lastAddress - firstAddress + 1`, and that count equals the group's
length — so the access into a response of `count` words is always in
bounds. -/
theorem block_read_index_in_bounds (addrs : List Nat) (maxReg : Nat)
    (hmax : 1 ≤ maxReg) (hs : List.Chain' (· < ·) addrs) :
    ∀ g ∈ groupAddressesDynamically addrs maxReg, ∀ a ∈ g,
      startAddressOf g ≤ a ∧ a - startAddressOf g < countOf g ∧
      countOf g = g.length := by
  intro g hg a ha
  obtain ⟨hchain, _, hne⟩ := groupAddressesDynamically_mem addrs maxReg hmax hs g hg
  cases g with
  | nil => exact absurd rfl hne
  | cons x t =>
      have hlast : (x :: t).getLastD 0 = x + t.length := consec_getLastD t x 0 hchain
      have hbounds := consec_mem_bounds t x hchain a ha
      have hcount : countOf (x :: t) = t.length + 1 := by
        simp only [countOf, startAddressOf, List.headD_cons, hlast]
        omega
      refine ⟨?_, ?_, ?_⟩
      · simpa only [startAddressOf, List.headD_cons] using hbounds.1
      · simp only [startAddressOf, List.headD_cons, hcount]
        omega
      · simp [hcount]

/-- Witness for C10: the last address of the first group of the spec's
example. -/
theorem block_read_index_in_bounds_witness :
    startAddressOf [10, 11, 12] ≤ 12 ∧
    12 - startAddressOf [10, 11, 12] < countOf [10, 11, 12] ∧
    countOf [10, 11, 12] = 3 := by
  have h := block_read_index_in_bounds [10, 11, 12, 20, 21] 10 (by decide)
    (by norm_num [List.chain'_cons]) [10, 11, 12] (by decide) 12 (by decide)
  simpa using h

theorem clearCurrentTimeout_of_inv (ts : TimerState) (h : TimerInv ts) :
    clearCurrentTimeout ts = [] := by
  obtain ⟨hlen, hall⟩ := h
  cases hp : ts.pending with
  | nil =>
      unfold clearCurrentTimeout
      cases ts.reconnectTimeout <;> simp [hp]
  | cons x xs =>
      have hx : ts.reconnectTimeout = some x := hall x (by simp [hp])
      have hxs : xs = [] := by
        rw [hp] at hlen
        cases xs with
        | nil => rfl
        | cons y ys =>
            exfalso
            simp only [List.length_cons] at hlen
            omega
      unfold clearCurrentTimeout
      rw [hx, hp, hxs]
      simp

theorem scheduleReconnect_pending (ts : TimerState) (h : TimerInv ts) :
    (scheduleReconnect ts).pending = [ts.nextHandle] := by
  simp [scheduleReconnect, clearCurrentTimeout_of_inv ts h]

theorem scheduleReconnect_inv (ts : TimerState) (h : TimerInv ts) :
    TimerInv (scheduleReconnect ts) := by
  constructor
  · simp [scheduleReconnect_pending ts h]
  · intro x hx
    rw [scheduleReconnect_pending ts h] at hx
    simp at hx
    simp [scheduleReconnect, hx]

/-- C6: the reconnect scheduler always cancels the previously stored timeout
before arming a fresh one, so from any state satisfying the single-timer
invariant the armed reconnect timeout after a call is exactly the fresh one,
the invariant is preserved, and two connect failures in a row leave exactly
one armed reconnect timeout — timers never stack. -/
theorem reconnect_never_stacks (st : GatewayState) (h : TimerInv st.timers) :
    (scheduleReconnect st.timers).pending = [st.timers.nextHandle] ∧
    TimerInv (scheduleReconnect st.timers) ∧
    (connectModbus (connectModbus st false) false).timers.pending.length = 1 := by
  refine ⟨scheduleReconnect_pending st.timers h, scheduleReconnect_inv st.timers h, ?_⟩
  have h1 : TimerInv (scheduleReconnect st.timers) := scheduleReconnect_inv st.timers h
  simp [connectModbus, scheduleReconnect_pending _ h1]

/-- Witness for C6: two connect failures from process start. -/
theorem reconnect_never_stacks_witness :
    (scheduleReconnect initialGateway.timers).pending = [0] ∧
    (connectModbus (connectModbus initialGateway false) false).timers.pending.length = 1 := by
  have h := reconnect_never_stacks initialGateway (by decide)
  exact ⟨h.1, h.2.2⟩

/-- C7 counterexample: after one failed connect attempt (a reachable state) a
reconnect timeout is armed; a then-successful `connectModbus` sets the session
connected but does NOT cancel the armed timeout, so a reconnect attempt
remains scheduled after the successful connection — the claim's cancellation
does not happen. -/
theorem connect_success_leaves_timer_pending :
    (connectModbus (connectModbus initialGateway false) true).modbusConnected = true ∧
    (connectModbus (connectModbus initialGateway false) true).timers.pending = [0] ∧
    (connectModbus (connectModbus initialGateway false) true).timers.pending ≠ [] := by
  decide

/-- C7 (amended): a successful `connectModbus` sets `modbusConnected` and
leaves the timer state entirely unchanged — it cancels nothing.  When the
successful attempt is the one made by the reconnect timeout's own callback
(`fireTimer`), that timeout is no longer armed afterwards, so in the
program's actual call pattern no reconnect remains scheduled after a
successful connection. -/
theorem connect_success_amended (st : GatewayState) (h : TimerInv st.timers) :
    (connectModbus st true).modbusConnected = true ∧
    (connectModbus st true).timers = st.timers ∧
    (fireTimer st true).modbusConnected = true ∧
    (fireTimer st true).timers.pending = [] := by
  refine ⟨by simp [connectModbus], by simp [connectModbus], ?_, ?_⟩
  · simp [fireTimer, connectModbus]
  · simp [fireTimer, connectModbus, clearCurrentTimeout_of_inv st.timers h]

/-- Witness for C7's amended claim at the state reached by one failed
attempt. -/
theorem connect_success_amended_witness :
    (connectModbus (connectModbus initialGateway false) true).timers =
      (connectModbus initialGateway false).timers ∧
    (fireTimer (connectModbus initialGateway false) true).timers.pending = [] := by
  have h := connect_success_amended (connectModbus initialGateway false) (by decide)
  exact ⟨h.2.1, h.2.2.2⟩

/-- C1 counterexample: `src/app.js` has no cycle-dependent register
selection.  With a map whose address 0 carries the low-priority topic-class
marker, the cycle at `cycleIndex = 1`, `cadence = 5` (a non-zero residue)
still reads address 0 — the claim's "only registers not flagged as
low-priority are read" is false. -/
theorem cycle_selection_counterexample :
    ¬ (∀ (m : AddrMap) (maxReg cadence i : Nat), 0 < cadence → i % cadence ≠ 0 →
        ∀ a ∈ cycleSelection maxReg m i, specLowPriority (m.entry a) = false) := by
  intro hclaim
  have h := hclaim exMapTwo 10 5 1 (by decide) (by decide) 0 (by decide)
  exact absurd h (by decide)

/-- C1 (amended): the register selection of a poll cycle does not depend on
the cycle index at all — every cycle groups the full sorted key set, so the
selection at any two cycle indices is identical (in particular at
`cycleIndex` and `cycleIndex mod cadence`), it always equals the full address
list, and the publishes of a cycle are unchanged under any change of the
cycle counter. -/
theorem cycle_selection_constant (maxReg i j : Nat) (m : AddrMap)
    (rb : Nat → Nat → Except Unit (List Nat)) (q : Except Unit AlarmStatus)
    (c1 c2 : Nat) (conn : Bool) (tt : TimerState) :
    cycleSelection maxReg m i = cycleSelection maxReg m j ∧
    cycleSelection maxReg m i = sortedAddresses m ∧
    (readModbusDataWithCycle maxReg m rb q ⟨c1, conn, tt⟩).2 =
      (readModbusDataWithCycle maxReg m rb q ⟨c2, conn, tt⟩).2 := by
  refine ⟨rfl, groupAddressesDynamically_flatten (sortedAddresses m) maxReg, ?_⟩
  cases conn
  · simp [readModbusDataWithCycle]
  · by_cases hg : groupAddressesDynamically (sortedAddresses m) maxReg = []
    · simp [readModbusDataWithCycle, hg]
    · by_cases hr : (processGroups m rb
          (groupAddressesDynamically (sortedAddresses m) maxReg) ⟨[], [], []⟩).2
      · simp [readModbusDataWithCycle, hg, hr]
      · simp [readModbusDataWithCycle, hg, hr]

/-- C3 counterexample: the not-connected guard of `readModbusDataWithCycle`
returns before the `try`/`finally` block, so an invocation on a disconnected
session does NOT advance the cycle counter — the claim's "exactly once on
every path" fails on the skip path. -/
theorem cycle_counter_counterexample :
    ¬ (∀ (maxReg : Nat) (m : AddrMap) (rb : Nat → Nat → Except Unit (List Nat))
         (q : Except Unit AlarmStatus) (st : GatewayState),
        (readModbusDataWithCycle maxReg m rb q st).1.readCycleCounter =
          st.readCycleCounter + 1) := by
  intro h
  have hc := h 10 exMapTwo (fun _ _ => Except.ok []) (Except.error ()) initialGateway
  simp [readModbusDataWithCycle, initialGateway, initialTimers] at hc

/-- C3 (amended): the cycle counter advances exactly once per invocation on
every path on which the session is connected — success, read failure and
empty address set alike — and does not advance on the skip path taken when
the session is not connected. -/
theorem cycle_counter_increment (maxReg : Nat) (m : AddrMap)
    (rb : Nat → Nat → Except Unit (List Nat)) (q : Except Unit AlarmStatus)
    (st : GatewayState) :
    (readModbusDataWithCycle maxReg m rb q st).1.readCycleCounter =
      if st.modbusConnected then st.readCycleCounter + 1
      else st.readCycleCounter := by
  obtain ⟨c, conn, tt⟩ := st
  cases conn
  · simp [readModbusDataWithCycle]
  · by_cases hg : groupAddressesDynamically (sortedAddresses m) maxReg = []
    · simp [readModbusDataWithCycle, hg]
    · by_cases hr : (processGroups m rb
          (groupAddressesDynamically (sortedAddresses m) maxReg) ⟨[], [], []⟩).2
      · simp [readModbusDataWithCycle, hg, hr]
      · simp [readModbusDataWithCycle, hg, hr]

theorem readCycle_events_disconnected (maxReg : Nat) (m : AddrMap)
    (rb : Nat → Nat → Except Unit (List Nat)) (q : Except Unit AlarmStatus)
    (st : GatewayState) (hconn : st.modbusConnected = false) :
    (readModbusDataWithCycle maxReg m rb q st).2 = [] := by
  simp [readModbusDataWithCycle, hconn]

theorem readCycle_status_not_mem_error (maxReg : Nat) (m : AddrMap)
    (rb : Nat → Nat → Except Unit (List Nat)) (st : GatewayState)
    (s : AlarmStatus) :
    PublishEvent.status s ∉
      (readModbusDataWithCycle maxReg m rb (Except.error ()) st).2 := by
  obtain ⟨c, conn, tt⟩ := st
  cases conn
  · simp [readModbusDataWithCycle]
  · by_cases hg : groupAddressesDynamically (sortedAddresses m) maxReg = []
    · simp [readModbusDataWithCycle, hg]
    · by_cases hr : (processGroups m rb
          (groupAddressesDynamically (sortedAddresses m) maxReg) ⟨[], [], []⟩).2
      · simp only [readModbusDataWithCycle, hg, hr]
        simp only [Bool.false_eq_true, if_false, if_neg hg, if_pos hr]
        simp [List.mem_append]
      · simp [readModbusDataWithCycle, hg, hr]

theorem readCycle_events_procfail (maxReg : Nat) (m : AddrMap)
    (rb : Nat → Nat → Except Unit (List Nat)) (q : Except Unit AlarmStatus)
    (st : GatewayState)
    (hr : (processGroups m rb
        (groupAddressesDynamically (sortedAddresses m) maxReg) ⟨[], [], []⟩).2 = false) :
    (readModbusDataWithCycle maxReg m rb q st).2 = [] := by
  obtain ⟨c, conn, tt⟩ := st
  cases conn
  · simp [readModbusDataWithCycle]
  · by_cases hg : groupAddressesDynamically (sortedAddresses m) maxReg = []
    · simp [readModbusDataWithCycle, hg]
    · simp [readModbusDataWithCycle, hg, hr]

theorem readCycle_status_mem_ok (maxReg : Nat) (m : AddrMap)
    (rb : Nat → Nat → Except Unit (List Nat)) (st : GatewayState)
    (s : AlarmStatus) (hconn : st.modbusConnected = true)
    (hg : groupAddressesDynamically (sortedAddresses m) maxReg ≠ [])
    (hr : (processGroups m rb
        (groupAddressesDynamically (sortedAddresses m) maxReg) ⟨[], [], []⟩).2 = true) :
    PublishEvent.status s ∈
      (readModbusDataWithCycle maxReg m rb (Except.ok s) st).2 := by
  obtain ⟨c, conn, tt⟩ := st
  simp only [GatewayState.modbusConnected] at hconn
  subst hconn
  simp only [readModbusDataWithCycle]
  simp only [if_neg hg, hr, if_pos]
  simp [List.mem_append]

theorem readCycle_counter_eq (maxReg : Nat) (m : AddrMap)
    (rb : Nat → Nat → Except Unit (List Nat)) (q : Except Unit AlarmStatus)
    (st : GatewayState) :
    (readModbusDataWithCycle maxReg m rb q st).1.readCycleCounter =
      if st.modbusConnected then st.readCycleCounter + 1
      else st.readCycleCounter := by
  obtain ⟨c, conn, tt⟩ := st
  cases conn
  · simp [readModbusDataWithCycle]
  · by_cases hg : groupAddressesDynamically (sortedAddresses m) maxReg = []
    · simp [readModbusDataWithCycle, hg]
    · by_cases hr : (processGroups m rb
          (groupAddressesDynamically (sortedAddresses m) maxReg) ⟨[], [], []⟩).2
      · simp [readModbusDataWithCycle, hg, hr]
      · simp [readModbusDataWithCycle, hg, hr]

/-- C2 counterexample: there is no independent status timer — the alarm
status is queried and published inside the poll cycle only.  On a cycle
invoked while the session is disconnected, nothing at all is published, even
though the Modbus reads and the alarm query would succeed — refuting "for
every status tick, the query and publish happen regardless of whether the
field-bus session is connected". -/
theorem status_timer_counterexample :
    ¬ (∀ (maxReg : Nat) (m : AddrMap) (rb : Nat → Nat → Except Unit (List Nat))
         (q : Except Unit AlarmStatus) (st : GatewayState),
        ∃ s, PublishEvent.status s ∈ (readModbusDataWithCycle maxReg m rb q st).2) := by
  intro h
  obtain ⟨s, hs⟩ := h 10 exMapTwo (fun _ c => Except.ok (List.replicate c 7))
    (Except.ok (alarmStatusQuery [])) initialGateway
  rw [readCycle_events_disconnected 10 exMapTwo _ _ initialGateway rfl] at hs
  exact absurd hs (List.not_mem_nil _)

/-- C2 (amended): the alarm-status summary is queried and published at the
end of each poll cycle, on the poll timer, and only when the session is
connected and every block read of the cycle succeeded; when the session is
disconnected or any block read fails nothing is published at all, and a
status event appears exactly on the successful path with a successful
query. -/
theorem status_publish_coupled (maxReg : Nat) (m : AddrMap)
    (rb : Nat → Nat → Except Unit (List Nat)) (q : Except Unit AlarmStatus)
    (st : GatewayState) :
    (st.modbusConnected = false → (readModbusDataWithCycle maxReg m rb q st).2 = []) ∧
    (∀ s, q = Except.error () →
       PublishEvent.status s ∉ (readModbusDataWithCycle maxReg m rb q st).2) ∧
    ((processGroups m rb (groupAddressesDynamically (sortedAddresses m) maxReg)
        ⟨[], [], []⟩).2 = false →
       (readModbusDataWithCycle maxReg m rb q st).2 = []) ∧
    (∀ s, st.modbusConnected = true →
       groupAddressesDynamically (sortedAddresses m) maxReg ≠ [] →
       (processGroups m rb (groupAddressesDynamically (sortedAddresses m) maxReg)
          ⟨[], [], []⟩).2 = true →
       q = Except.ok s →
       PublishEvent.status s ∈ (readModbusDataWithCycle maxReg m rb q st).2) := by
  refine ⟨?_, ?_, ?_, ?_⟩
  · intro hconn
    exact readCycle_events_disconnected maxReg m rb q st hconn
  · intro s hq
    subst hq
    exact readCycle_status_not_mem_error maxReg m rb st s
  · intro hr
    exact readCycle_events_procfail maxReg m rb q st hr
  · intro s hconn hg hr hq
    subst hq
    exact readCycle_status_mem_ok maxReg m rb st s hconn hg hr

/-- Witness for C2's amended claim: a connected two-register cycle with
successful reads and query publishes the status; the same cycle disconnected
publishes nothing. -/
theorem status_publish_coupled_witness :
    PublishEvent.status (alarmStatusQuery ["prio1"]) ∈
      (readModbusDataWithCycle 10 exMapTwo (fun _ c => Except.ok (List.replicate c 7))
        (Except.ok (alarmStatusQuery ["prio1"]))
        { initialGateway with modbusConnected := true }).2 ∧
    (readModbusDataWithCycle 10 exMapTwo (fun _ c => Except.ok (List.replicate c 7))
        (Except.ok (alarmStatusQuery ["prio1"])) initialGateway).2 = [] := by
  constructor
  · exact (status_publish_coupled 10 exMapTwo (fun _ c => Except.ok (List.replicate c 7))
      (Except.ok (alarmStatusQuery ["prio1"]))
      { initialGateway with modbusConnected := true }).2.2.2
      (alarmStatusQuery ["prio1"]) rfl (by decide) (by decide) rfl
  · exact (status_publish_coupled 10 exMapTwo (fun _ c => Except.ok (List.replicate c 7))
      (Except.ok (alarmStatusQuery ["prio1"])) initialGateway).1 rfl

theorem processGroups_fail (m : AddrMap) (rb : Nat → Nat → Except Unit (List Nat))
    (gf : List Nat) (gs2 : List (List Nat))
    (hfail : rb (startAddressOf gf) (countOf gf) = Except.error ()) :
    ∀ (gs1 : List (List Nat)) (acc : CycleAccum),
      (∀ g ∈ gs1, ∃ d, rb (startAddressOf g) (countOf g) = Except.ok d) →
      (processGroups m rb (gs1 ++ gf :: gs2) acc).2 = false ∧
      (processGroups m rb (gs1 ++ gf :: gs2) acc).1.reads =
        acc.reads ++ gs1.map (fun g => (startAddressOf g, countOf g)) ++
          [(startAddressOf gf, countOf gf)] := by
  intro gs1
  induction gs1 with
  | nil =>
      intro acc _
      simp [processGroups, hfail]
  | cons g gs1 ih =>
      intro acc hok
      obtain ⟨d, hd⟩ := hok g (by simp)
      have ihr := ih
        { payload := acc.payload ++
            g.map (fun a => mkDataPoint m a (d.getD (a - startAddressOf g) 0))
          alarmPayload := acc.alarmPayload ++
            (g.map (fun a => mkDataPoint m a (d.getD (a - startAddressOf g) 0))).filter
              (fun p => p.alarm)
          reads := acc.reads ++ [(startAddressOf g, countOf g)] }
        (fun g' hg' => hok g' (by simp [hg']))
      simp only [List.cons_append, processGroups, hd, List.append_eq]
      refine ⟨ihr.1, ?_⟩
      rw [ihr.2]
      simp

/-- C5: when any block read of a cycle fails, the loop breaks — the block
reads issued are exactly those up to and including the failing group, no
later group is read — nothing at all is published that cycle (no telemetry,
no alarm payload, no status: all-or-nothing), the connection is marked
disconnected, the cycle counter still advances, and exactly one reconnect is
scheduled (`scheduleReconnect` applied once, leaving a single armed timeout
under the timer invariant). -/
theorem read_failure_all_or_nothing (maxReg : Nat) (m : AddrMap)
    (rb : Nat → Nat → Except Unit (List Nat)) (q : Except Unit AlarmStatus)
    (st : GatewayState) (gs1 gs2 : List (List Nat)) (gf : List Nat)
    (hconn : st.modbusConnected = true)
    (hgroups : groupAddressesDynamically (sortedAddresses m) maxReg = gs1 ++ gf :: gs2)
    (hok : ∀ g ∈ gs1, ∃ d, rb (startAddressOf g) (countOf g) = Except.ok d)
    (hfail : rb (startAddressOf gf) (countOf gf) = Except.error ()) :
    (readModbusDataWithCycle maxReg m rb q st).2 = [] ∧
    (readModbusDataWithCycle maxReg m rb q st).1.modbusConnected = false ∧
    (readModbusDataWithCycle maxReg m rb q st).1.timers = scheduleReconnect st.timers ∧
    (readModbusDataWithCycle maxReg m rb q st).1.readCycleCounter =
      st.readCycleCounter + 1 ∧
    (processGroups m rb (groupAddressesDynamically (sortedAddresses m) maxReg)
        ⟨[], [], []⟩).1.reads =
      gs1.map (fun g => (startAddressOf g, countOf g)) ++
        [(startAddressOf gf, countOf gf)] ∧
    (TimerInv st.timers →
      (readModbusDataWithCycle maxReg m rb q st).1.timers.pending.length = 1) := by
  have hp := processGroups_fail m rb gf gs2 hfail gs1 ⟨[], [], []⟩ hok
  have hne : groupAddressesDynamically (sortedAddresses m) maxReg ≠ [] := by
    rw [hgroups]
    simp
  have hr : (processGroups m rb
      (groupAddressesDynamically (sortedAddresses m) maxReg) ⟨[], [], []⟩).2 = false := by
    rw [hgroups]
    exact hp.1
  obtain ⟨c, conn, tt⟩ := st
  simp only [GatewayState.modbusConnected] at hconn
  subst hconn
  refine ⟨?_, ?_, ?_, ?_, ?_, ?_⟩
  · simp [readModbusDataWithCycle, hne, hr]
  · simp [readModbusDataWithCycle, hne, hr]
  · simp [readModbusDataWithCycle, hne, hr]
  · simp [readModbusDataWithCycle, hne, hr]
  · rw [hgroups]
    simpa using hp.2
  · intro hinv
    simp only [GatewayState.timers] at hinv
    simp [readModbusDataWithCycle, hne, hr, scheduleReconnect_pending tt hinv]

/-- A five-register map giving three read groups `[[0,1],[5,6],[10]]`. -/
def exMapFive : AddrMap :=
  { keys := [0, 1, 5, 6, 10], entry := fun _ => exEntryStd }

/-- A block-read capability that fails exactly on the group starting at
address 5 (the second of the three groups of `exMapFive`). -/
def exReadFailAt5 : Nat → Nat → Except Unit (List Nat) :=
  fun s _ => if s = 5 then Except.error () else Except.ok [7, 7]

/-- A connected gateway state mid-run. -/
def exStConnected : GatewayState :=
  { readCycleCounter := 3, modbusConnected := true, timers := initialTimers }

/-- Witness for C5: the second of three groups fails; nothing is published,
the reads stop after the failing group, and exactly one reconnect timeout is
armed. -/
theorem read_failure_all_or_nothing_witness :
    (readModbusDataWithCycle 10 exMapFive exReadFailAt5
        (Except.ok (alarmStatusQuery [])) exStConnected).2 = [] ∧
    (readModbusDataWithCycle 10 exMapFive exReadFailAt5
        (Except.ok (alarmStatusQuery [])) exStConnected).1.modbusConnected = false ∧
    (processGroups exMapFive exReadFailAt5
        (groupAddressesDynamically (sortedAddresses exMapFive) 10)
        ⟨[], [], []⟩).1.reads = [(0, 2), (5, 2)] ∧
    (readModbusDataWithCycle 10 exMapFive exReadFailAt5
        (Except.ok (alarmStatusQuery [])) exStConnected).1.timers.pending.length = 1 := by
  have h := read_failure_all_or_nothing 10 exMapFive exReadFailAt5
    (Except.ok (alarmStatusQuery [])) exStConnected [[0, 1]] [[10]] [5, 6] rfl
    (by decide)
    (by
      intro g hg
      simp only [List.mem_singleton] at hg
      subst hg
      exact ⟨[7, 7], rfl⟩)
    rfl
  refine ⟨h.1, h.2.1, ?_, h.2.2.2.2.2 (by decide)⟩
  rw [h.2.2.2.2.1]
  rfl

/-- A one-register map with scaling factor 0.1. -/
def exMapFactor : AddrMap :=
  { keys := [0], entry := fun _ => { exEntryStd with factor := 1/10 } }

/-- C8: each data point built from a block read carries
`value = rawRegisterWord * factor`: the points appended to the cycle payload
for a successfully read group are exactly the per-address
`mkDataPoint` values, whose `value` field is the raw word at index
`address - startAddress` times the configured factor; with factor 0.1 and
raw word 235 the value is 23.5. -/
theorem datapoint_value_scaled (m : AddrMap)
    (rb : Nat → Nat → Except Unit (List Nat)) (g : List Nat) (data : List Nat)
    (acc : CycleAccum)
    (hread : rb (startAddressOf g) (countOf g) = Except.ok data) :
    (processGroups m rb [g] acc).1.payload =
      acc.payload ++
        g.map (fun a => mkDataPoint m a (data.getD (a - startAddressOf g) 0)) ∧
    (∀ a raw, (mkDataPoint m a raw).value = (raw : ℚ) * (m.entry a).factor) ∧
    (mkDataPoint exMapFactor 0 235).value = 23.5 := by
  refine ⟨?_, fun a raw => rfl, ?_⟩
  · simp [processGroups, hread]
  · norm_num [mkDataPoint, exMapFactor, exEntryStd]

/-- Witness for C8 at the spec's concrete example: one group `[0]` read with
raw word 235 and factor 0.1 contributes exactly one data point of value
23.5. -/
theorem datapoint_value_scaled_witness :
    (processGroups exMapFactor (fun _ _ => Except.ok [235]) [[0]]
        ⟨[], [], []⟩).1.payload = [mkDataPoint exMapFactor 0 235] ∧
    (mkDataPoint exMapFactor 0 235).value = 23.5 := by
  have h := datapoint_value_scaled exMapFactor (fun _ _ => Except.ok [235]) [0] [235]
    ⟨[], [], []⟩ rfl
  refine ⟨?_, h.2.2⟩
  rw [h.1]
  rfl

/-- C9: a failing alarm-store query is logged and swallowed at the cycle
level — the status publish is simply skipped, the cycle still completes and
advances its counter (the `setInterval` timer keeps driving it) — and
`getAlarmStatus` releases its pool connection on every exit path: the pool's
outstanding-handle count after the call equals the count before it, so a pool
starting with zero outstanding handles ends with zero. -/
theorem alarm_query_failure_safe (p : Pool) (connectOk : Bool)
    (alarms : List String) (queryOk : Bool) (maxReg : Nat) (m : AddrMap)
    (rb : Nat → Nat → Except Unit (List Nat)) (st : GatewayState) :
    (getAlarmStatus p connectOk alarms queryOk).1.outstanding = p.outstanding ∧
    (p.outstanding = 0 → (getAlarmStatus p connectOk alarms queryOk).1.outstanding = 0) ∧
    (∀ s, (getAlarmStatus p connectOk alarms queryOk).2 = Except.error () →
       PublishEvent.status s ∉
         (readModbusDataWithCycle maxReg m rb
           (getAlarmStatus p connectOk alarms queryOk).2 st).2) ∧
    (st.modbusConnected = true →
       (readModbusDataWithCycle maxReg m rb
         (getAlarmStatus p connectOk alarms queryOk).2 st).1.readCycleCounter =
         st.readCycleCounter + 1) := by
  have hout : (getAlarmStatus p connectOk alarms queryOk).1.outstanding = p.outstanding := by
    cases connectOk <;> cases queryOk <;>
      simp [getAlarmStatus, poolAcquire, poolRelease]
  refine ⟨hout, fun h0 => by rw [hout, h0], ?_, ?_⟩
  · intro s hq
    rw [hq]
    exact readCycle_status_not_mem_error maxReg m rb st s
  · intro hconn
    rw [readCycle_counter_eq maxReg m rb (getAlarmStatus p connectOk alarms queryOk).2 st]
    simp [hconn]

/-- Witness for C9: alarm store unreachable (query fails) during a connected
cycle — zero outstanding handles after the call, no status publish, counter
advanced. -/
theorem alarm_query_failure_safe_witness :
    (getAlarmStatus ⟨0⟩ true ["prio1"] false).1.outstanding = 0 ∧
    PublishEvent.status (alarmStatusQuery []) ∉
      (readModbusDataWithCycle 10 exMapTwo (fun _ c => Except.ok (List.replicate c 7))
        (getAlarmStatus ⟨0⟩ true ["prio1"] false).2 exStConnected).2 ∧
    (readModbusDataWithCycle 10 exMapTwo (fun _ c => Except.ok (List.replicate c 7))
        (getAlarmStatus ⟨0⟩ true ["prio1"] false).2 exStConnected).1.readCycleCounter = 4 := by
  have h := alarm_query_failure_safe ⟨0⟩ true ["prio1"] false 10 exMapTwo
    (fun _ c => Except.ok (List.replicate c 7)) exStConnected
  exact ⟨h.2.1 rfl, h.2.2.1 (alarmStatusQuery []) rfl, h.2.2.2 rfl⟩
